import Mathlib

/-!
Shallow embedding of the Pareto-front core of `predictables-rs`.

Coordinates are modelled as rationals (the source uses `f64` purely through
order comparisons; the spec describes the coordinates as real numbers).

Source of truth:
* `src/src/_pareto_sort/mod.rs`: `is_dominated`, `domination_order`,
  `pareto_sort_rs`;
* `src/src/lib.rs`: the public entry point `pareto_sort`, a thin wrapper
  around `pareto_sort_rs`.
-/

namespace PredictablesRs

/-- Embedding of `is_dominated` (mod.rs lines 50-54):
`a.iter().zip(b.iter()).all(|(ai, bi)| ai >= bi)` and
`a.iter().zip(b.iter()).any(|(ai, bi)| ai > bi)`, conjoined.
Rust's `zip` stops at the shorter iterator, so unequal lengths are silently
truncated, exactly as in the source. -/
def is_dominated (a b : List ℚ) : Bool :=
  ((a.zip b).all fun p => decide (p.2 ≤ p.1)) &&
  ((a.zip b).any fun p => decide (p.2 < p.1))

/-- Embedding of `domination_order` (mod.rs lines 98-106):
`Greater` if `is_dominated(a, b)`, `Less` if `is_dominated(b, a)`,
`Equal` otherwise. -/
def domination_order (a b : List ℚ) : Ordering :=
  if is_dominated a b then Ordering.gt
  else if is_dominated b a then Ordering.lt
  else Ordering.eq

/-- The retain predicate of the closure passed to `pareto_front.retain` in
`pareto_sort_rs` (mod.rs lines 154-164): an existing member `p` is kept
exactly when `domination_order(p, point)` is `Greater`. -/
def retain_pred (point p : List ℚ) : Bool :=
  match domination_order p point with
  | Ordering.lt => false
  | Ordering.gt => true
  | Ordering.eq => false

/-- Whether the closure passed to `retain` sets the `dominated` flag when it
visits member `p`: it does so in the `Less` and `Equal` branches
(mod.rs lines 155-163). -/
def sets_dominated_flag (point p : List ℚ) : Bool :=
  match domination_order p point with
  | Ordering.lt => true
  | Ordering.gt => false
  | Ordering.eq => true

/-- One iteration of the loop body of `pareto_sort_rs` (mod.rs lines 152-168):
`retain` keeps the members whose `domination_order` against the incoming
point is `Greater`; the incoming point is appended afterwards unless some
visited member set the `dominated` flag. The flag only ever moves from
`false` to `true` and the retain predicate does not read it, so the
mutation inside the closure is captured by `List.any` over the old front. -/
def pareto_step (front : List (List ℚ)) (point : List ℚ) : List (List ℚ) :=
  if front.any (sets_dominated_flag point) then front.filter (retain_pred point)
  else front.filter (retain_pred point) ++ [point]

/-- Embedding of `pareto_sort_rs` (mod.rs lines 150-170): starting from an
empty working front, fold the loop body over the input points in order. -/
def pareto_sort_rs (points : List (List ℚ)) : List (List ℚ) :=
  points.foldl pareto_step []

/-- Embedding of the public entry point `pareto_sort` (lib.rs lines 5-8),
which forwards to `pareto_sort_rs`. -/
def pareto_sort (points : List (List ℚ)) : List (List ℚ) :=
  pareto_sort_rs points

/-- The dominance predicate as worded by the spec (section 4.1), for
comparison with the source's `is_dominated`: "true iff `b` dominates `a`:
every coordinate of `a` is ≤ the corresponding coordinate of `b`, AND at
least one coordinate is strictly less". -/
def spec_is_dominated (a b : List ℚ) : Bool :=
  ((a.zip b).all fun p => decide (p.1 ≤ p.2)) &&
  ((a.zip b).any fun p => decide (p.1 < p.2))

/-! ### Helper lemmas -/

lemma any_zip_self_lt (p : List ℚ) :
    ((p.zip p).any fun q => decide (q.2 < q.1)) = false := by
  induction p with
  | nil => rfl
  | cons x xs ih => simp [List.zip_cons_cons, ih]

lemma is_dominated_self (p : List ℚ) : is_dominated p p = false := by
  unfold is_dominated
  rw [any_zip_self_lt]
  exact Bool.and_false _

lemma not_both_dominated (a b : List ℚ) :
    ¬(is_dominated a b = true ∧ is_dominated b a = true) := by
  rintro ⟨hab, hba⟩
  unfold is_dominated at hab hba
  rw [Bool.and_eq_true] at hab hba
  obtain ⟨hall, -⟩ := hab
  obtain ⟨-, hany⟩ := hba
  rw [List.any_eq_true] at hany
  obtain ⟨q, hq, hlt⟩ := hany
  rw [List.all_eq_true] at hall
  have hmem : q.swap ∈ a.zip b := by
    rw [← List.zip_swap b a]
    exact List.mem_map_of_mem Prod.swap hq
  have hle := hall q.swap hmem
  simp only [Prod.snd_swap, Prod.fst_swap, decide_eq_true_eq] at hle
  simp only [decide_eq_true_eq] at hlt
  exact absurd hlt (not_lt.mpr hle)

lemma zip_all_decideP (a b : List ℚ) (r : ℚ → ℚ → Prop) [∀ x y, Decidable (r x y)] :
    (((a.zip b).all fun p => decide (r p.1 p.2)) = true) ↔
      ∀ i, ∀ hia : i < a.length, ∀ hib : i < b.length,
        r (a.get ⟨i, hia⟩) (b.get ⟨i, hib⟩) := by
  rw [List.all_eq_true]
  rw [List.forall_mem_iff_getElem]
  simp only [List.length_zip, List.getElem_zip, decide_eq_true_eq, lt_min_iff]
  constructor
  · intro h i hia hib
    exact h i ⟨hia, hib⟩
  · rintro h i ⟨hia, hib⟩
    exact h i hia hib

lemma zip_any_decideP (a b : List ℚ) (r : ℚ → ℚ → Prop) [∀ x y, Decidable (r x y)] :
    (((a.zip b).any fun p => decide (r p.1 p.2)) = true) ↔
      ∃ i, ∃ hia : i < a.length, ∃ hib : i < b.length,
        r (a.get ⟨i, hia⟩) (b.get ⟨i, hib⟩) := by
  rw [List.any_eq_true]
  rw [List.exists_mem_iff_getElem]
  simp only [List.length_zip, List.getElem_zip, decide_eq_true_eq, lt_min_iff]
  constructor
  · rintro ⟨i, ⟨hia, hib⟩, h⟩
    exact ⟨i, hia, hib, h⟩
  · rintro ⟨i, hia, hib, h⟩
    exact ⟨i, ⟨hia, hib⟩, h⟩

lemma mem_pareto_step {x point : List ℚ} {front : List (List ℚ)}
    (hx : x ∈ pareto_step front point) : x ∈ front ∨ x = point := by
  unfold pareto_step at hx
  split at hx
  · exact Or.inl (List.mem_of_mem_filter hx)
  · rcases List.mem_append.mp hx with h | h
    · exact Or.inl (List.mem_of_mem_filter h)
    · exact Or.inr (List.mem_singleton.mp h)

lemma length_pareto_step (front : List (List ℚ)) (point : List ℚ) :
    (pareto_step front point).length ≤ front.length + 1 := by
  unfold pareto_step
  split
  · exact le_trans (List.length_filter_le _ _) (Nat.le_succ _)
  · rw [List.length_append, List.length_singleton]
    exact Nat.add_le_add_right (List.length_filter_le _ _) 1

lemma foldl_pareto_invariant (points : List (List ℚ)) : ∀ front : List (List ℚ),
    (∀ x ∈ points.foldl pareto_step front, x ∈ front ∨ x ∈ points) ∧
    (points.foldl pareto_step front).length ≤ front.length + points.length := by
  induction points with
  | nil => intro front; simp
  | cons p ps ih =>
    intro front
    rw [List.foldl_cons]
    refine ⟨fun x hx => ?_, ?_⟩
    · rcases (ih (pareto_step front p)).1 x hx with h | h
      · rcases mem_pareto_step h with h2 | h2
        · exact Or.inl h2
        · exact Or.inr (by simp [h2])
      · exact Or.inr (List.mem_cons_of_mem _ h)
    · have h1 := (ih (pareto_step front p)).2
      have h2 := length_pareto_step front p
      simp only [List.length_cons]
      omega

lemma domination_order_eq_of_not_dominated {m p : List ℚ}
    (h1 : is_dominated m p = false) (h2 : is_dominated p m = false) :
    domination_order m p = Ordering.eq := by
  unfold domination_order
  rw [h1, h2]
  rfl

/-! ### Claims -/

/-- C9: for every point p, is_dominated(p, p) is false: a point never
dominates itself, because the strictly-better-on-one-coordinate condition
fails on identical vectors. -/
theorem C9_is_dominated_irrefl : ∀ p : List ℚ, is_dominated p p = false :=
  is_dominated_self

/-- C1: the claim that pareto_sort returns exactly the Pareto-front subset of
the input fails: on the input [[1],[2]] the entry point returns the empty
sequence, although the input point [2] is dominated by no input point (under
the spec's dominance) and therefore belongs to the Pareto front. -/
theorem C1_pareto_sort_failing_eval :
    pareto_sort [[(1:ℚ)], [(2:ℚ)]] = [] ∧
    spec_is_dominated [(2:ℚ)] [(1:ℚ)] = false ∧
    spec_is_dominated [(2:ℚ)] [(2:ℚ)] = false := by
  refine ⟨by decide, by decide, by decide⟩

/-- C2 counterexample: the claim says is_dominated(a, b) is true when every
coordinate of a is ≤ the corresponding coordinate of b with at least one
strictly less; at a = [1,2,3], b = [1,2,4] those conditions hold, yet the
code returns false (this very input is the repository's own unit test
test_is_dominated_eq_false). -/
theorem C2_claim_counterexample :
    is_dominated [(1:ℚ), 2, 3] [(1:ℚ), 2, 4] = false ∧
    ((1:ℚ) ≤ 1 ∧ (2:ℚ) ≤ 2 ∧ (3:ℚ) ≤ 4) ∧ (3:ℚ) < 4 := by
  refine ⟨by decide, ⟨by decide, by decide, by decide⟩, by decide⟩

/-- C2 amended: for equal-length vectors, is_dominated(a, b) is true iff
every coordinate of a is ≥ the corresponding coordinate of b and at least
one coordinate of a is strictly greater — the mirror image of the spec's
wording. -/
theorem C2_is_dominated_amended (a b : List ℚ) (_h : a.length = b.length) :
    is_dominated a b = true ↔
      ((∀ i, ∀ hia : i < a.length, ∀ hib : i < b.length,
          b.get ⟨i, hib⟩ ≤ a.get ⟨i, hia⟩) ∧
       (∃ i, ∃ hia : i < a.length, ∃ hib : i < b.length,
          b.get ⟨i, hib⟩ < a.get ⟨i, hia⟩)) := by
  unfold is_dominated
  rw [Bool.and_eq_true]
  rw [zip_all_decideP a b fun x y => y ≤ x]
  rw [zip_any_decideP a b fun x y => y < x]

/-- C2 amended, witness at a = [1,2,4], b = [1,2,3]. -/
theorem C2_is_dominated_amended_witness :
    ([(1:ℚ), 2, 4] : List ℚ).length = ([(1:ℚ), 2, 3] : List ℚ).length ∧
    (is_dominated [(1:ℚ), 2, 4] [(1:ℚ), 2, 3] = true ↔
      ((∀ i, ∀ hia : i < ([(1:ℚ), 2, 4] : List ℚ).length,
          ∀ hib : i < ([(1:ℚ), 2, 3] : List ℚ).length,
          ([(1:ℚ), 2, 3] : List ℚ).get ⟨i, hib⟩ ≤
            ([(1:ℚ), 2, 4] : List ℚ).get ⟨i, hia⟩) ∧
       (∃ i, ∃ hia : i < ([(1:ℚ), 2, 4] : List ℚ).length,
          ∃ hib : i < ([(1:ℚ), 2, 3] : List ℚ).length,
          ([(1:ℚ), 2, 3] : List ℚ).get ⟨i, hib⟩ <
            ([(1:ℚ), 2, 4] : List ℚ).get ⟨i, hia⟩))) :=
  ⟨rfl, C2_is_dominated_amended [(1:ℚ), 2, 4] [(1:ℚ), 2, 3] rfl⟩

/-- C3: the front-pairwise-non-domination invariant fails: on the input
[[3],[1]] the builder returns both [3] and [1], although [1] is dominated by
[3] (the code's own predicate also relates them: is_dominated([3],[1]) is
true). -/
theorem C3_front_invariant_failing_eval :
    pareto_sort_rs [[(3:ℚ)], [(1:ℚ)]] = [[(3:ℚ)], [(1:ℚ)]] ∧
    spec_is_dominated [(1:ℚ)] [(3:ℚ)] = true ∧
    is_dominated [(3:ℚ)] [(1:ℚ)] = true := by
  refine ⟨by decide, by decide, by decide⟩

/-- C4: completeness fails: on the input [[3,1],[1,3]] the builder returns
the empty front, excluding both points, yet no point encountered during the
pass dominates either excluded point. -/
theorem C4_completeness_failing_eval :
    pareto_sort_rs [[(3:ℚ), 1], [(1:ℚ), 3]] = [] ∧
    spec_is_dominated [(3:ℚ), 1] [(1:ℚ), 3] = false ∧
    spec_is_dominated [(3:ℚ), 1] [(3:ℚ), 1] = false ∧
    spec_is_dominated [(1:ℚ), 3] [(3:ℚ), 1] = false ∧
    spec_is_dominated [(1:ℚ), 3] [(1:ℚ), 3] = false := by
  refine ⟨by decide, by decide, by decide, by decide, by decide⟩

/-- C5 counterexample: two identical points [2,2],[2,2] fed to the
incremental builder yield the empty front, not a front containing exactly
one [2,2]. -/
theorem C5_claim_counterexample :
    pareto_sort_rs [[(2:ℚ), 2], [(2:ℚ), 2]] = [] ∧
    pareto_sort_rs [[(2:ℚ), 2], [(2:ℚ), 2]] ≠ [[(2:ℚ), 2]] := by
  refine ⟨by decide, by decide⟩

/-- C5 amended: coordinate-wise identical points collapse to zero surviving
copies, not one: for every point p, feeding [p, p] to the incremental
builder yields the empty front — the first copy is dropped by the Equal
branch of the retain predicate and the second copy is marked dominated and
discarded. -/
theorem C5_duplicates_amended : ∀ p : List ℚ, pareto_sort_rs [p, p] = [] := by
  intro p
  have hdo : domination_order p p = Ordering.eq :=
    domination_order_eq_of_not_dominated (is_dominated_self p) (is_dominated_self p)
  show pareto_step (pareto_step [] p) p = []
  have h0 : pareto_step [] p = [p] := by simp [pareto_step]
  rw [h0]
  simp [pareto_step, sets_dominated_flag, retain_pred, hdo]

/-- C6 counterexample: the input [[2,1],[1,2]] has no internal domination
(under the spec's dominance and under the code's own predicate), yet the
builder returns the empty front rather than the input set. -/
theorem C6_claim_counterexample :
    pareto_sort_rs [[(2:ℚ), 1], [(1:ℚ), 2]] = [] ∧
    spec_is_dominated [(2:ℚ), 1] [(1:ℚ), 2] = false ∧
    spec_is_dominated [(1:ℚ), 2] [(2:ℚ), 1] = false ∧
    is_dominated [(2:ℚ), 1] [(1:ℚ), 2] = false ∧
    is_dominated [(1:ℚ), 2] [(2:ℚ), 1] = false := by
  refine ⟨by decide, by decide, by decide, by decide, by decide⟩

/-- C6 amended: during the incremental pass an existing front member that is
merely incomparable to the new point IS removed and the new point IS treated
as dominated, because the three-way domination order maps incomparability
and exact equality to the same Equal branch: whenever neither of m and p
dominates the other, processing [m, p] leaves an empty front. -/
theorem C6_incomparable_amended (m p : List ℚ)
    (h1 : is_dominated m p = false) (h2 : is_dominated p m = false) :
    pareto_sort_rs [m, p] = [] := by
  have hdo : domination_order m p = Ordering.eq :=
    domination_order_eq_of_not_dominated h1 h2
  show pareto_step (pareto_step [] m) p = []
  have h0 : pareto_step [] m = [m] := by simp [pareto_step]
  rw [h0]
  simp [pareto_step, sets_dominated_flag, retain_pred, hdo]

/-- C6 amended, witness at m = [2,1], p = [1,2]. -/
theorem C6_incomparable_amended_witness :
    is_dominated [(2:ℚ), 1] [(1:ℚ), 2] = false ∧
    is_dominated [(1:ℚ), 2] [(2:ℚ), 1] = false ∧
    pareto_sort_rs [[(2:ℚ), 1], [(1:ℚ), 2]] = [] :=
  ⟨by decide, by decide,
    C6_incomparable_amended [(2:ℚ), 1] [(1:ℚ), 2] (by decide) (by decide)⟩

/-- C7: on mismatched lengths the computation does not abort: zip silently
truncates to the shorter vector. Comparing [2,0] against [1] yields true
from the first coordinate alone (padding b to [1,1] would yield false), and
the builder on a ragged point set still produces a front rather than
failing. -/
theorem C7_truncation_eval :
    is_dominated [(2:ℚ), 0] [(1:ℚ)] = true ∧
    is_dominated [(2:ℚ), 0] [(1:ℚ), 1] = false ∧
    pareto_sort_rs [[(1:ℚ)], [(2:ℚ), 5]] = [] := by
  refine ⟨by decide, by decide, by decide⟩

/-- C8: for equal-length vectors, domination_order(a, b) is Greater exactly
when is_dominated(a, b), Less exactly when is_dominated(b, a), and Equal
exactly when neither holds (covering mutual non-domination and exact
coordinate-wise equality). -/
theorem C8_domination_order_consistency (a b : List ℚ) (_h : a.length = b.length) :
    (domination_order a b = Ordering.gt ↔ is_dominated a b = true) ∧
    (domination_order a b = Ordering.lt ↔ is_dominated b a = true) ∧
    (domination_order a b = Ordering.eq ↔
      (is_dominated a b = false ∧ is_dominated b a = false)) := by
  cases hab : is_dominated a b with
  | true =>
    cases hba : is_dominated b a with
    | true => exact absurd ⟨hab, hba⟩ (not_both_dominated a b)
    | false => simp [domination_order, hab, hba]
  | false =>
    cases hba : is_dominated b a with
    | true => simp [domination_order, hab, hba]
    | false => simp [domination_order, hab, hba]

/-- C8, witness at a = [1,2,4], b = [1,2,3]. -/
theorem C8_domination_order_consistency_witness :
    ([(1:ℚ), 2, 4] : List ℚ).length = ([(1:ℚ), 2, 3] : List ℚ).length ∧
    ((domination_order [(1:ℚ), 2, 4] [(1:ℚ), 2, 3] = Ordering.gt ↔
        is_dominated [(1:ℚ), 2, 4] [(1:ℚ), 2, 3] = true) ∧
     (domination_order [(1:ℚ), 2, 4] [(1:ℚ), 2, 3] = Ordering.lt ↔
        is_dominated [(1:ℚ), 2, 3] [(1:ℚ), 2, 4] = true) ∧
     (domination_order [(1:ℚ), 2, 4] [(1:ℚ), 2, 3] = Ordering.eq ↔
        (is_dominated [(1:ℚ), 2, 4] [(1:ℚ), 2, 3] = false ∧
         is_dominated [(1:ℚ), 2, 3] [(1:ℚ), 2, 4] = false))) :=
  ⟨rfl, C8_domination_order_consistency [(1:ℚ), 2, 4] [(1:ℚ), 2, 3] rfl⟩

/-- C10: every element returned by pareto_sort_rs is an element of the input
(the builder only copies input points into the output), so the output length
never exceeds the input length. -/
theorem C10_front_subset_of_input (points : List (List ℚ)) :
    pareto_sort_rs points ⊆ points ∧
    (pareto_sort_rs points).length ≤ points.length := by
  constructor
  · intro x hx
    rcases (foldl_pareto_invariant points []).1 x hx with h | h
    · exact absurd h (List.not_mem_nil x)
    · exact h
  · simpa using (foldl_pareto_invariant points []).2

end PredictablesRs
